import Mathlib

set_option maxHeartbeats 1000000

/-!
Shallow embedding of the LastMile.cy demand-matching core (two React apps in
one source file).  The first app ("demo app", `LastMileDemo`) clusters pending
ride requests by strict equality of the destination's `region` field via
`simulateRLOptimization`.  The second app ("map app", `LastMileAI`) clusters
the whole accumulated request list by haversine distance between destinations
(`submitRequest`), builds routes per cluster with `selectVehicle`,
`fetchRoute` (OSRM, may fail) and a haversine fallback, and maintains
`stats` counters (`clearAll` resets them).

JavaScript numbers are modelled as exact rationals (catalog coordinates,
emission factors) and reals (trigonometric distance math); `Math.random`
driven values (identifiers, savings draws) are threaded as explicit stream
parameters, so the embedding is a pure function of its inputs.  Decimal
display formatting (`toFixed`) is treated as presentation and not modelled.
-/

/-- Status of a demo-app ride request (`'pending' | 'assigned'`). -/
inductive ReqStatus where
  | pending
  | assigned
deriving DecidableEq

/-- A catalog location.  Demo-app village entries carry a `region`;
all other entries leave it absent (`undefined` in the source, `none` here). -/
structure Location where
  id : String
  name : String
  lat : ℚ
  lng : ℚ
  type : String
  region : Option String
deriving DecidableEq

/-- A demo-app ride request (`generateRideRequest` / `handleRequestRide`). -/
structure Request1 where
  id : String
  origin : Location
  destination : Location
  passengers : ℕ
  timestamp : ℕ
  status : ReqStatus
  eta : ℕ
deriving DecidableEq

/-- A map-app ride request (`submitRequest`).  Note: no status field exists. -/
structure Request where
  id : String
  pickup : Location
  destination : Location
  passengers : ℕ
  time : String
deriving DecidableEq

/-- One vehicle class of the `VEHICLES` table. -/
structure VehicleInfo where
  name : String
  capacity : ℕ
  icon : String
  co2 : ℚ
  color : String
deriving DecidableEq

/-- The three vehicle classes of the map app. -/
structure VehicleTable where
  small : VehicleInfo
  medium : VehicleInfo
  large : VehicleInfo

/-- The `VEHICLES` constant of the map app. -/
def VEHICLES : VehicleTable where
  small := ⟨"Mini Van", 4, "van", 0.15, "#10b981"⟩
  medium := ⟨"Minibus", 8, "minibus", 0.22, "#3b82f6"⟩
  large := ⟨"Bus", 20, "bus", 0.30, "#8b5cf6"⟩

/-- The list of available vehicle classes, smallest to largest. -/
def vehicleList : List VehicleInfo := [VEHICLES.small, VEHICLES.medium, VEHICLES.large]

/- Catalog entries used in concrete runs below (values copied from
`CYPRUS_LOCATIONS` / `LOCATIONS` in the source). -/

/-- Catalog entry for Nicosia (city, no region). -/
def nicosia : Location := ⟨"nicosia", "Nicosia", 35.1856, 33.3823, "city", none⟩

/-- Catalog entry for Larnaca (city, no region). -/
def larnaca : Location := ⟨"larnaca", "Larnaca", 34.9229, 33.6233, "city", none⟩

/-- Catalog entry for Nissi Beach (beach, no region). -/
def nissi : Location := ⟨"nissi", "Nissi Beach", 34.9875, 34.0028, "beach", none⟩

/-- Catalog entry for Kourion (archaeological, no region). -/
def kourion : Location := ⟨"kourion", "Kourion", 34.6647, 32.8872, "archaeological", none⟩

/-- Demo-app catalog entry for Kakopetria (village, region Troodos). -/
def kakopetriaDemo : Location := ⟨"kakopetria", "Kakopetria", 34.9833, 32.9, "village", some "Troodos"⟩

/-- Demo-app catalog entry for Platres (village, region Troodos). -/
def platresDemo : Location := ⟨"platres", "Platres", 34.8897, 32.8639, "village", some "Troodos"⟩

/-- Demo-app catalog entry for Lefkara (village, region Larnaca). -/
def lefkaraDemo : Location := ⟨"lefkara", "Lefkara", 34.8667, 33.3, "village", some "Larnaca"⟩

/-!
### Greedy clustering

Both apps run the same greedy single-pass loop over the request list: a
mutable `processed`/`used` set of ids, an outer `forEach` opening a cluster
for each unprocessed request, and an inner `forEach` over the same full list
adding compatible unprocessed candidates.  They differ only in the
compatibility test (`canAdd`), so the loop is embedded once, generically.
-/

/-- One step of the inner candidate scan: skip candidates whose id is
already used, otherwise add them to the open cluster when compatible.
`acc.1` is the open cluster, `acc.2` the used-id set (as an ordered list). -/
def innerStep {α : Type} (rid : α → String) (canAdd : α → List α → α → Bool) (seed : α)
    (acc : List α × List String) (other : α) : List α × List String :=
  if rid other ∈ acc.2 then acc
  else if canAdd seed acc.1 other then (acc.1 ++ [other], acc.2 ++ [rid other]) else acc

/-- One step of the outer loop: skip processed requests, otherwise open a
cluster seeded with the request and scan the whole list for candidates.
`st.1` is the list of closed clusters, `st.2` the used-id set. -/
def outerStep {α : Type} (rid : α → String) (canAdd : α → List α → α → Bool) (al : List α)
    (st : List (List α) × List String) (req : α) : List (List α) × List String :=
  if rid req ∈ st.2 then st
  else
    let p := al.foldl (innerStep rid canAdd req) ([req], st.2 ++ [rid req])
    (st.1 ++ [p.1], p.2)

/-- The full greedy clustering pass over `reqs` (both apps iterate the same
list in the outer and inner loop). -/
def runClustering {α : Type} (rid : α → String) (canAdd : α → List α → α → Bool)
    (reqs : List α) : List (List α) :=
  (reqs.foldl (outerStep rid canAdd reqs) ([], [])).1

/-- Demo-app compatibility test (`simulateRLOptimization`): strict equality
of the destination `region` fields (two absent regions compare equal, as
`undefined === undefined` does) and an open-cluster size below 4. -/
def canAddRegion (seed : Request1) (cl : List Request1) (other : Request1) : Bool :=
  decide (other.destination.region = seed.destination.region) && decide (cl.length < 4)

/-- The cluster membership computed by the demo app's `simulateRLOptimization`. -/
def simulateRLClusters (reqs : List Request1) : List (List Request1) :=
  runClustering Request1.id canAddRegion reqs

/-- Map-app compatibility test (`submitRequest`): the candidate's destination
is near the seed's destination.  The concrete `near` used by the program is
`osrmNear` (haversine distance below 20 km); it is kept as a parameter so
that statements range over it. -/
def canAddNear (near : Location → Location → Bool) (seed : Request) (_cl : List Request)
    (other : Request) : Bool :=
  near seed.destination other.destination

/-- The cluster membership computed inside the map app's `submitRequest`. -/
def submitClusters (near : Location → Location → Bool) (reqs : List Request) :
    List (List Request) :=
  runClustering Request.id (canAddNear near) reqs

/-- The compatibility key as worded by the SPEC (not the code): the
destination's region if present, else its category.  Kept for comparison
with what the code actually tests. -/
def specCompatibilityKey (l : Location) : String :=
  l.region.getD l.type

/-!
### Geographic math (`getDistance`, OSRM fallback)
-/

/-- Degrees to radians, `x * Math.PI / 180`. -/
noncomputable def rad (x : ℚ) : ℝ := (x : ℝ) * Real.pi / 180

/-- JavaScript `Math.atan2 (y, x)` on real inputs. -/
noncomputable def atan2 (y x : ℝ) : ℝ :=
  if 0 < x then Real.arctan (y / x)
  else if x < 0 then
    (if 0 ≤ y then Real.arctan (y / x) + Real.pi else Real.arctan (y / x) - Real.pi)
  else (if 0 < y then Real.pi / 2 else if y < 0 then -(Real.pi / 2) else 0)

/-- The map app's `getDistance`: haversine great-circle distance in km. -/
noncomputable def getDistance (lat1 lng1 lat2 lng2 : ℚ) : ℝ :=
  let dLat := rad (lat2 - lat1)
  let dLng := rad (lng2 - lng1)
  let a := Real.sin (dLat / 2) ^ 2 +
    Real.cos (rad lat1) * Real.cos (rad lat2) * Real.sin (dLng / 2) ^ 2
  6371 * 2 * atan2 (Real.sqrt a) (Real.sqrt (1 - a))

open Classical in
/-- The concrete nearness test used by `submitRequest`: destination
haversine distance below 20 km. -/
noncomputable def osrmNear (a b : Location) : Bool :=
  if getDistance a.lat a.lng b.lat b.lng < 20 then true else false

/-- The fallback distance of `submitRequest`: the sum of haversine lengths of
consecutive stop segments (`stops.reduce`, contributing 0 at index 0). -/
noncomputable def fallbackDist : List Location → ℝ
  | [] => 0
  | [_] => 0
  | a :: b :: rest => getDistance a.lat a.lng b.lat b.lng + fallbackDist (b :: rest)

/-- JavaScript `Math.round` (round half toward positive infinity). -/
noncomputable def jsRound (x : ℝ) : ℤ := ⌊x + 1 / 2⌋

/-- What the external routing provider returns on success
(`data.routes[0]`, scaled to km and minutes). -/
structure RouteData where
  geometry : List (ℝ × ℝ)
  distance : ℝ
  duration : ℝ

/-- The map app's `fetchRoute`: `null` for fewer than two stops, otherwise
whatever the network produced (`none` models timeout, error status and
malformed payloads, all of which the source converts to `null`). -/
def fetchRoute (net : List Location → Option RouteData) (stops : List Location) :
    Option RouteData :=
  if stops.length < 2 then none else net stops

/-- The map app's `selectVehicle`: small for at most 4 passengers, medium for
at most 8, large otherwise. -/
def selectVehicle (passengers : ℕ) : VehicleInfo :=
  if passengers ≤ 4 then VEHICLES.small
  else if passengers ≤ 8 then VEHICLES.medium
  else VEHICLES.large

/-- JavaScript `Map`-based id-deduplication (`[...new Map(xs.map(x => [x.id, x])).values()]`):
first-occurrence order of ids, last value stored for a repeated id. -/
def uniqueById (locs : List Location) : List Location :=
  locs.foldl
    (fun acc l =>
      if acc.any (fun a => a.id == l.id) then acc.map (fun a => if a.id == l.id then l else a)
      else acc ++ [l])
    []

/-- The stop list of a cluster: deduplicated pickups then deduplicated
destinations. -/
def stopsOf (cluster : List Request) : List Location :=
  uniqueById (cluster.map Request.pickup) ++ uniqueById (cluster.map Request.destination)

/-- A route as built by `submitRequest` for one cluster. -/
structure BuiltRoute where
  id : String
  stops : List Location
  vehicle : VehicleInfo
  passengers : ℕ
  distance : ℝ
  time : ℤ
  co2 : ℝ
  geometry : Option (List (ℝ × ℝ))
  requests : List Request

/-- The per-cluster route construction inside `submitRequest`.  `net` is the
routing provider, `idGen` the random id drawn for this route. -/
noncomputable def buildRoute (net : List Location → Option RouteData) (idGen : String)
    (cluster : List Request) : BuiltRoute :=
  let totalPass := (cluster.map Request.passengers).sum
  let vehicle := selectVehicle totalPass
  let stops := stopsOf cluster
  let routeData := fetchRoute net stops
  let dist := match routeData with
    | some rd => rd.distance
    | none => fallbackDist stops
  let carCO2 := (totalPass : ℝ) * dist * 0.21
  let busCO2 := dist * (vehicle.co2 : ℝ)
  let saved := max 0 (carCO2 - busCO2)
  { id := idGen
    stops := stops
    vehicle := vehicle
    passengers := totalPass
    distance := dist
    time := match routeData with
      | some rd => jsRound rd.duration
      | none => jsRound (dist / 45 * 60)
    co2 := saved
    geometry := routeData.map RouteData.geometry
    requests := cluster }

/-!
### Map-app state and operations
-/

/-- The map app's `stats` state. -/
structure Stats where
  total : ℕ
  co2 : ℝ

/-- The mutable state of the map app (UI-only flags such as `isLoading` and
`mapReady` are omitted; they do not feed back into the data path). -/
structure AppState where
  pickup : Option Location
  destination : Option Location
  passengers : ℕ
  routes : List BuiltRoute
  requests : List Request
  stats : Stats

/-- The map app's `submitRequest`: return unchanged unless both a pickup and
a destination are selected; otherwise append one new request, re-cluster the
whole accumulated list, rebuild and replace all routes, bump the counters and
clear the selection.  `near` is the nearness test (`osrmNear` in the
program), `net` the routing provider, `reqId` the random id drawn for the
new request, `routeIds` the random ids drawn for the rebuilt routes, `now`
the formatted submission time. -/
noncomputable def submitRequest (near : Location → Location → Bool)
    (net : List Location → Option RouteData) (reqId : String) (routeIds : ℕ → String)
    (now : String) (st : AppState) : AppState :=
  match st.pickup, st.destination with
  | some p, some d =>
    let newRequest : Request := ⟨reqId, p, d, st.passengers, now⟩
    let newRequests := st.requests ++ [newRequest]
    let clusters := submitClusters near newRequests
    let newRoutes := clusters.enum.map (fun ic => buildRoute net (routeIds ic.1) ic.2)
    { pickup := none
      destination := none
      passengers := 1
      routes := newRoutes
      requests := newRequests
      stats := ⟨st.stats.total + 1, st.stats.co2 + (newRoutes.map BuiltRoute.co2).sum⟩ }
  | _, _ => st

/-- The map app's `clearAll`: drop routes, requests and selection and reset
the counters to zero (the `passengers` selector is left untouched). -/
def clearAll (st : AppState) : AppState :=
  { st with routes := [], requests := [], pickup := none, destination := none,
            stats := ⟨0, 0⟩ }

/-!
### Demo-app state and operations
-/

/-- One optimized cluster object produced by the demo app's
`simulateRLOptimization` (`estimatedSavings` consumes a random draw,
`co2Saved` is 2.5 kg per clustered request). -/
structure ClusterObj where
  id : String
  requests : List Request1
  totalPassengers : ℕ
  estimatedSavings : ℤ
  co2Saved : ℚ
  route : List String
deriving DecidableEq

/-- The demo app's `simulateRLOptimization`: the greedy membership pass, with
each cluster annotated into an object.  `ids` and `sav` supply the
`Math.random` draws (id string and savings draw of the k-th cluster); the
source's `if (cluster.length > 0)` guard is vacuous since every cluster
contains its seed. -/
def simulateRLOptimization (ids : ℕ → String) (sav : ℕ → ℚ) (reqs : List Request1) :
    List ClusterObj :=
  (simulateRLClusters reqs).enum.map (fun ic =>
    { id := ids ic.1
      requests := ic.2
      totalPassengers := (ic.2.map Request1.passengers).sum
      estimatedSavings := ⌊(ic.2.length * 15 : ℚ) + sav ic.1 * 10⌋
      co2Saved := (ic.2.length : ℚ) * 2.5
      route := ic.2.map (fun r => r.destination.name) })

/-- The mutable state of the demo app (UI-only flags omitted). -/
structure App1State where
  rideRequests : List Request1
  optimizedRoutes : List ClusterObj
  totalRequests : ℕ
  co2Stat : ℚ
  selectedOrigin : Option Location
  selectedDestination : Option Location

/-- The demo app's pending-request view (`rideRequests.filter(r => r.status === 'pending')`). -/
def pendingRequests (st : App1State) : List Request1 :=
  st.rideRequests.filter (fun r => r.status == ReqStatus.pending)

/-- The demo app's `handleRequestRide`: do nothing unless both an origin and
a destination are selected; otherwise append one new pending single-passenger
request, bump the counter and clear the selection.  `newId` and `eta` supply
the random draws, `now` the creation timestamp. -/
def handleRequestRide (newId : String) (now : ℕ) (eta : ℕ) (st : App1State) : App1State :=
  match st.selectedOrigin, st.selectedDestination with
  | some o, some d =>
    { st with rideRequests := st.rideRequests ++ [⟨newId, o, d, 1, now, ReqStatus.pending, eta⟩],
              totalRequests := st.totalRequests + 1,
              selectedOrigin := none, selectedDestination := none }
  | _, _ => st

/-- The demo app's periodic simulated-request tick: append a generated
request (passed in, since its content is random) while fewer than 8 requests
exist, bumping the counter. -/
def simulateTick (newReq : Request1) (st : App1State) : App1State :=
  if st.rideRequests.length < 8 then
    { st with rideRequests := st.rideRequests ++ [newReq],
              totalRequests := st.totalRequests + 1 }
  else st

/-- The demo app's optimization effect once the pending count reaches the
threshold: publish the clusters of the pending requests, mark every request
assigned, and add the clusters' savings to the CO2 stat. -/
def runOptimization (ids : ℕ → String) (sav : ℕ → ℚ) (st : App1State) : App1State :=
  let optimized := simulateRLOptimization ids sav (pendingRequests st)
  { st with optimizedRoutes := optimized,
            rideRequests := st.rideRequests.map (fun r => { r with status := ReqStatus.assigned }),
            co2Stat := st.co2Stat + (optimized.map ClusterObj.co2Saved).sum }

/-!
### Invariants of the greedy clustering loop
-/

/-- Effect of the inner candidate scan: it appends a selection of scanned
candidates to the open cluster, and their ids (in step) to the used set;
every appended candidate was unused at scan start and passed the
compatibility test against some intermediate cluster state, and no id is
appended twice. -/
lemma innerScan_spec {α : Type} (rid : α → String) (canAdd : α → List α → α → Bool) (seed : α)
    (rest : List α) (cl : List α) (us : List String) :
    ∃ d : List α,
      rest.foldl (innerStep rid canAdd seed) (cl, us) = (cl ++ d, us ++ d.map rid) ∧
      (∀ x ∈ d, x ∈ rest ∧ rid x ∉ us ∧ ∃ c, canAdd seed c x = true) ∧
      (d.map rid).Nodup := by
  induction rest generalizing cl us with
  | nil => exact ⟨[], by simp, by simp, List.nodup_nil⟩
  | cons h t ih =>
    rw [List.foldl_cons]
    by_cases h1 : rid h ∈ us
    · obtain ⟨d, he, hp, hn⟩ := ih cl us
      refine ⟨d, ?_, ?_, hn⟩
      · rw [show innerStep rid canAdd seed (cl, us) h = (cl, us) by
          simp [innerStep, h1]]
        exact he
      · exact fun x hx => ⟨List.mem_cons_of_mem _ (hp x hx).1, (hp x hx).2.1, (hp x hx).2.2⟩
    · by_cases h2 : canAdd seed cl h
      · obtain ⟨d, he, hp, hn⟩ := ih (cl ++ [h]) (us ++ [rid h])
        refine ⟨h :: d, ?_, ?_, ?_⟩
        · rw [show innerStep rid canAdd seed (cl, us) h = (cl ++ [h], us ++ [rid h]) by
            simp [innerStep, h1, h2]]
          rw [he]
          simp
        · intro x hx
          rcases List.mem_cons.mp hx with rfl | hx
          · exact ⟨List.mem_cons_self _ _, h1, ⟨cl, h2⟩⟩
          · obtain ⟨hxt, hxid, hxc⟩ := hp x hx
            exact ⟨List.mem_cons_of_mem _ hxt, fun hc => hxid (List.mem_append_left _ hc), hxc⟩
        · rw [List.map_cons]
          refine List.nodup_cons.mpr ⟨?_, hn⟩
          intro hc
          obtain ⟨x, hx, hxe⟩ := List.mem_map.mp hc
          exact (hp x hx).2.1 (by
            rw [hxe]
            exact List.mem_append_right _ (List.mem_singleton.mpr rfl))
      · obtain ⟨d, he, hp, hn⟩ := ih cl us
        refine ⟨d, ?_, ?_, hn⟩
        · rw [show innerStep rid canAdd seed (cl, us) h = (cl, us) by
            simp [innerStep, h1, h2]]
          exact he
        · exact fun x hx => ⟨List.mem_cons_of_mem _ (hp x hx).1, (hp x hx).2.1, (hp x hx).2.2⟩

/-- The ids appended by the inner scan avoid the head id appended by the
outer step, so the cons below each cluster is id-nodup. -/
lemma innerScan_head_not_mem {α : Type} (rid : α → String) (_canAdd : α → List α → α → Bool)
    (seed : α) (d : List α) (us : List String)
    (hp : ∀ x ∈ d, rid x ∉ us ++ [rid seed]) : rid seed ∉ d.map rid := by
  intro hc
  obtain ⟨x, hx, hxe⟩ := List.mem_map.mp hc
  exact hp x hx (by rw [hxe]; exact List.mem_append_right _ (List.mem_singleton.mpr rfl))

/-- Effect of the outer loop: it appends some clusters and, in step, the ids
of their members to the used set.  Each appended cluster is the result of an
inner scan over the full list seeded with one of its requests; members come
from the full list; every processed id is recorded exactly once; and every
scanned request ends with its id recorded. -/
lemma outerLoop_spec {α : Type} (rid : α → String) (canAdd : α → List α → α → Bool)
    (al : List α) (todo : List α) (htodo : ∀ x ∈ todo, x ∈ al) :
    ∀ (cls : List (List α)) (us : List String),
    ∃ dc : List (List α),
      todo.foldl (outerStep rid canAdd al) (cls, us) = (cls ++ dc, us ++ dc.flatten.map rid) ∧
      (∀ c ∈ dc, ∃ s us0, s ∈ al ∧ c = (al.foldl (innerStep rid canAdd s) ([s], us0)).1) ∧
      (∀ x ∈ dc.flatten, x ∈ al) ∧
      (dc.flatten.map rid).Nodup ∧
      (∀ i ∈ dc.flatten.map rid, i ∉ us) ∧
      (∀ r ∈ todo, rid r ∈ us ++ dc.flatten.map rid) := by
  induction todo with
  | nil =>
    intro cls us
    exact ⟨[], by simp, by simp, by simp, by simp, by simp, by simp⟩
  | cons req t ih =>
    intro cls us
    have htodot : ∀ x ∈ t, x ∈ al := fun x hx => htodo x (List.mem_cons_of_mem _ hx)
    rw [List.foldl_cons]
    by_cases hin : rid req ∈ us
    · rw [show outerStep rid canAdd al (cls, us) req = (cls, us) by
        simp [outerStep, hin]]
      obtain ⟨dc, he, hform, hmem, hnd, hus, hall⟩ := (ih htodot) cls us
      refine ⟨dc, he, hform, hmem, hnd, hus, ?_⟩
      intro r hr
      rcases List.mem_cons.mp hr with rfl | hr
      · exact List.mem_append_left _ hin
      · exact hall r hr
    · obtain ⟨d, hd, hp, hn⟩ := innerScan_spec rid canAdd req al [req] (us ++ [rid req])
      rw [show outerStep rid canAdd al (cls, us) req
            = (cls ++ [req :: d], (us ++ [rid req]) ++ d.map rid) by
        simp only [outerStep, if_neg hin]
        rw [hd]
        simp]
      obtain ⟨dc, he, hform, hmem, hnd, hus, hall⟩ :=
        (ih htodot) (cls ++ [req :: d]) ((us ++ [rid req]) ++ d.map rid)
      have hseednot : rid req ∉ d.map rid :=
        innerScan_head_not_mem rid canAdd req d us (fun x hx => (hp x hx).2.1)
      refine ⟨(req :: d) :: dc, ?_, ?_, ?_, ?_, ?_, ?_⟩
      · rw [he]
        simp
      · intro c hc
        rcases List.mem_cons.mp hc with rfl | hc
        · refine ⟨req, us ++ [rid req], htodo req (List.mem_cons_self _ _), ?_⟩
          rw [hd]
          rfl
        · exact hform c hc
      · intro x hx
        simp only [List.flatten_cons, List.mem_append, List.mem_cons] at hx
        rcases hx with (rfl | hx) | hx
        · exact htodo x (List.mem_cons_self _ _)
        · exact (hp x hx).1
        · exact hmem x hx
      · simp only [List.flatten_cons, List.map_append, List.map_cons]
        rw [List.nodup_append]
        refine ⟨List.nodup_cons.mpr ⟨hseednot, hn⟩, hnd, ?_⟩
        intro a ha hb
        have haus : a ∈ (us ++ [rid req]) ++ d.map rid := by
          rcases List.mem_cons.mp ha with rfl | ha
          · exact List.mem_append_left _ (List.mem_append_right _ (List.mem_singleton.mpr rfl))
          · exact List.mem_append_right _ ha
        exact hus a hb haus
      · intro i hi
        simp only [List.flatten_cons, List.map_append, List.map_cons, List.mem_append,
          List.mem_cons] at hi
        rcases hi with (rfl | hi) | hi
        · exact hin
        · intro hc
          obtain ⟨x, hx, hxe⟩ := List.mem_map.mp hi
          subst hxe
          exact (hp x hx).2.1 (List.mem_append_left _ hc)
        · intro hc
          exact hus i hi (List.mem_append_left _ (List.mem_append_left _ hc))
      · intro r hr
        rcases List.mem_cons.mp hr with rfl | hr
        · simp
        · have := hall r hr
          simp only [List.mem_append, List.flatten_cons, List.map_append, List.map_cons,
            List.mem_cons, List.mem_singleton] at this ⊢
          tauto

/-- Invariants of a full clustering run: every cluster is an inner scan over
the full list seeded with one of its members; members come from the input;
member ids are pairwise distinct across the whole output; and every input
request's id appears among the output members' ids. -/
lemma runClustering_spec {α : Type} (rid : α → String) (canAdd : α → List α → α → Bool)
    (reqs : List α) :
    (∀ c ∈ runClustering rid canAdd reqs, ∃ s us0, s ∈ reqs ∧
        c = (reqs.foldl (innerStep rid canAdd s) ([s], us0)).1) ∧
    (∀ x ∈ (runClustering rid canAdd reqs).flatten, x ∈ reqs) ∧
    ((runClustering rid canAdd reqs).flatten.map rid).Nodup ∧
    (∀ r ∈ reqs, rid r ∈ (runClustering rid canAdd reqs).flatten.map rid) := by
  obtain ⟨dc, he, hform, hmem, hnd, hus, hall⟩ :=
    outerLoop_spec rid canAdd reqs reqs (fun x hx => hx) [] []
  have h1 : runClustering rid canAdd reqs = dc := by
    rw [runClustering, he]
    simp
  rw [h1]
  refine ⟨hform, hmem, hnd, ?_⟩
  intro r hr
  simpa using hall r hr

/-- Partition property of a full clustering run: when input ids are pairwise
distinct, the concatenation of the output clusters is a permutation of the
input list. -/
lemma runClustering_flatten_perm {α : Type} [DecidableEq α] (rid : α → String)
    (canAdd : α → List α → α → Bool) (reqs : List α) (h : (reqs.map rid).Nodup) :
    (runClustering rid canAdd reqs).flatten.Perm reqs := by
  obtain ⟨-, hsub, hnd, hall⟩ := runClustering_spec rid canAdd reqs
  have hJnd : (runClustering rid canAdd reqs).flatten.Nodup := List.Nodup.of_map rid hnd
  have hrnd : reqs.Nodup := List.Nodup.of_map rid h
  have hiff : ∀ a, a ∈ (runClustering rid canAdd reqs).flatten ↔ a ∈ reqs := by
    intro a
    constructor
    · exact fun ha => hsub a ha
    · intro ha
      obtain ⟨x, hxJ, hxe⟩ := List.mem_map.mp (hall a ha)
      have hxr : x ∈ reqs := hsub x hxJ
      have hxa := List.inj_on_of_nodup_map h hxr ha hxe
      rwa [← hxa]
  rw [List.perm_iff_count]
  intro a
  by_cases ha : a ∈ reqs
  · rw [List.count_eq_one_of_mem hJnd ((hiff a).mpr ha), List.count_eq_one_of_mem hrnd ha]
  · rw [List.count_eq_zero_of_not_mem (fun hc => ha ((hiff a).mp hc)),
        List.count_eq_zero_of_not_mem ha]

/-- Every cluster of a run consists of a seed from the input followed by
members each of which passed the compatibility test against the seed and
some intermediate cluster state. -/
lemma runClustering_cluster_shape {α : Type} (rid : α → String)
    (canAdd : α → List α → α → Bool) (reqs : List α) :
    ∀ c ∈ runClustering rid canAdd reqs, ∃ s d, c = s :: d ∧ s ∈ reqs ∧
      ∀ x ∈ d, ∃ cc, canAdd s cc x = true := by
  intro c hc
  obtain ⟨hform, -, -, -⟩ := runClustering_spec rid canAdd reqs
  obtain ⟨s, us0, hs, he⟩ := hform c hc
  obtain ⟨d, hd, hp, -⟩ := innerScan_spec rid canAdd s reqs [s] us0
  refine ⟨s, d, ?_, hs, fun x hx => (hp x hx).2.2⟩
  rw [he, hd]
  rfl

/-- If the compatibility test refuses clusters of length at least `n`, the
inner scan never grows the open cluster past `n`. -/
lemma innerScan_length_le {α : Type} (rid : α → String) (canAdd : α → List α → α → Bool)
    (seed : α) (n : ℕ) (hguard : ∀ s c x, canAdd s c x = true → c.length < n)
    (rest : List α) :
    ∀ (cl : List α) (us : List String), cl.length ≤ n →
      ((rest.foldl (innerStep rid canAdd seed) (cl, us)).1).length ≤ n := by
  induction rest with
  | nil => intro cl us hcl; simpa
  | cons h t ih =>
    intro cl us hcl
    rw [List.foldl_cons]
    by_cases h1 : rid h ∈ us
    · rw [show innerStep rid canAdd seed (cl, us) h = (cl, us) by simp [innerStep, h1]]
      exact ih cl us hcl
    · by_cases h2 : canAdd seed cl h
      · rw [show innerStep rid canAdd seed (cl, us) h = (cl ++ [h], us ++ [rid h]) by
          simp [innerStep, h1, h2]]
        refine ih (cl ++ [h]) (us ++ [rid h]) ?_
        have := hguard seed cl h h2
        simp only [List.length_append, List.length_singleton]
        omega
      · rw [show innerStep rid canAdd seed (cl, us) h = (cl, us) by simp [innerStep, h1, h2]]
        exact ih cl us hcl

/-- Demo-app clusters never hold more than 4 requests (the
`cluster.length < 4` guard). -/
lemma simulateRLClusters_length_le (reqs : List Request1) :
    ∀ c ∈ simulateRLClusters reqs, c.length ≤ 4 := by
  intro c hc
  obtain ⟨hform, -, -, -⟩ := runClustering_spec Request1.id canAddRegion reqs
  obtain ⟨s, us0, -, he⟩ := hform c hc
  rw [he]
  refine innerScan_length_le Request1.id canAddRegion s 4 ?_ reqs [s] us0 (by simp)
  intro s' c' x hx
  simp only [canAddRegion, Bool.and_eq_true, decide_eq_true_eq] at hx
  exact hx.2

/-- All members of a demo-app cluster carry the same destination `region`
field (the seed's). -/
lemma simulateRLClusters_region_eq (reqs : List Request1) :
    ∀ c ∈ simulateRLClusters reqs, ∀ x ∈ c, ∀ y ∈ c,
      x.destination.region = y.destination.region := by
  intro c hc
  obtain ⟨s, d, hcd, -, hmem⟩ :=
    runClustering_cluster_shape Request1.id canAddRegion reqs c hc
  have key : ∀ x ∈ c, x.destination.region = s.destination.region := by
    intro x hx
    rw [hcd] at hx
    rcases List.mem_cons.mp hx with rfl | hx
    · rfl
    · obtain ⟨cc, hcc⟩ := hmem x hx
      simp only [canAddRegion, Bool.and_eq_true, decide_eq_true_eq] at hcc
      exact hcc.1
  intro x hx y hy
  rw [key x hx, key y hy]

/-- Every non-seed member of a map-app cluster passed the nearness test
against the seed's destination. -/
lemma submitClusters_near (near : Location → Location → Bool) (reqs : List Request) :
    ∀ c ∈ submitClusters near reqs, ∃ s d, c = s :: d ∧ s ∈ reqs ∧
      ∀ x ∈ d, near s.destination x.destination = true := by
  intro c hc
  obtain ⟨s, d, hcd, hs, hmem⟩ :=
    runClustering_cluster_shape Request.id (canAddNear near) reqs c hc
  refine ⟨s, d, hcd, hs, ?_⟩
  intro x hx
  obtain ⟨cc, hcc⟩ := hmem x hx
  simpa [canAddNear] using hcc

/-!
### Properties of the haversine math
-/

/-- The haversine intermediate value `a` computed inside `getDistance`. -/
noncomputable def haverA (lat1 lng1 lat2 lng2 : ℚ) : ℝ :=
  Real.sin (rad (lat2 - lat1) / 2) ^ 2 +
    Real.cos (rad lat1) * Real.cos (rad lat2) * Real.sin (rad (lng2 - lng1) / 2) ^ 2

/-- `getDistance` written through `haverA`. -/
lemma getDistance_eq (lat1 lng1 lat2 lng2 : ℚ) :
    getDistance lat1 lng1 lat2 lng2 =
      6371 * 2 * atan2 (Real.sqrt (haverA lat1 lng1 lat2 lng2))
        (Real.sqrt (1 - haverA lat1 lng1 lat2 lng2)) := rfl

/-- `Math.atan2` of two nonnegative arguments is nonnegative. -/
lemma atan2_nonneg {y x : ℝ} (hy : 0 ≤ y) (hx : 0 ≤ x) : 0 ≤ atan2 y x := by
  have hπ := Real.pi_pos
  rcases eq_or_lt_of_le hx with hx0 | hx0
  · rw [atan2, if_neg (by rw [← hx0]; exact lt_irrefl 0),
      if_neg (by rw [← hx0]; exact lt_irrefl 0)]
    by_cases hy0 : 0 < y
    · rw [if_pos hy0]
      linarith
    · rw [if_neg hy0, if_neg (not_lt.mpr hy)]
  · rw [atan2, if_pos hx0]
    rw [show (0:ℝ) = Real.arctan 0 by rw [Real.arctan_zero]]
    exact Real.arctan_strictMono.monotone (div_nonneg hy hx0.le)

/-- `Math.atan2` of a positive and a nonnegative argument is positive. -/
lemma atan2_pos {y x : ℝ} (hy : 0 < y) (hx : 0 ≤ x) : 0 < atan2 y x := by
  have hπ := Real.pi_pos
  rcases eq_or_lt_of_le hx with hx0 | hx0
  · rw [atan2, if_neg (by rw [← hx0]; exact lt_irrefl 0),
      if_neg (by rw [← hx0]; exact lt_irrefl 0), if_pos hy]
    linarith
  · rw [atan2, if_pos hx0]
    rw [show (0:ℝ) = Real.arctan 0 by rw [Real.arctan_zero]]
    exact Real.arctan_strictMono (div_pos hy hx0)

/-- `getDistance` is always nonnegative. -/
lemma getDistance_nonneg (lat1 lng1 lat2 lng2 : ℚ) :
    0 ≤ getDistance lat1 lng1 lat2 lng2 := by
  rw [getDistance_eq]
  have h := atan2_nonneg (Real.sqrt_nonneg (haverA lat1 lng1 lat2 lng2))
    (Real.sqrt_nonneg (1 - haverA lat1 lng1 lat2 lng2))
  nlinarith

/-- `getDistance` between identical coordinates is zero. -/
lemma getDistance_self (lat lng : ℚ) : getDistance lat lng lat lng = 0 := by
  rw [getDistance_eq]
  have ha : haverA lat lng lat lng = 0 := by
    rw [haverA]
    simp [rad, sub_self]
  rw [ha, Real.sqrt_zero, sub_zero, Real.sqrt_one, atan2,
    if_pos (by norm_num : (0:ℝ) < 1)]
  simp

/-- The haversine intermediate value never exceeds 1. -/
lemma haverA_le_one (lat1 lng1 lat2 lng2 : ℚ) : haverA lat1 lng1 lat2 lng2 ≤ 1 := by
  rw [haverA]
  have hsub : rad (lat2 - lat1) = rad lat2 - rad lat1 := by
    rw [rad, rad, rad]
    push_cast
    ring
  have e1 : Real.sin (rad (lat2 - lat1) / 2) ^ 2
      = 1 / 2 - Real.cos (rad lat2 - rad lat1) / 2 := by
    rw [Real.sin_sq_eq_half_sub, mul_div_cancel₀ _ (two_ne_zero), hsub]
  have e2 : Real.sin (rad (lng2 - lng1) / 2) ^ 2
      = 1 / 2 - Real.cos (rad (lng2 - lng1)) / 2 := by
    rw [Real.sin_sq_eq_half_sub, mul_div_cancel₀ _ (two_ne_zero)]
  rw [e1, e2, Real.cos_sub]
  have p1 := Real.sin_sq_add_cos_sq (rad lat1)
  have p2 := Real.sin_sq_add_cos_sq (rad lat2)
  have h1 := Real.cos_le_one (rad (lng2 - lng1))
  have h2 := Real.neg_one_le_cos (rad (lng2 - lng1))
  nlinarith [sq_nonneg (Real.sin (rad lat1) + Real.sin (rad lat2)),
    mul_nonneg (by linarith : (0:ℝ) ≤ 1 + Real.cos (rad (lng2 - lng1)))
      (sq_nonneg (Real.cos (rad lat1) + Real.cos (rad lat2))),
    mul_nonneg (by linarith : (0:ℝ) ≤ 1 - Real.cos (rad (lng2 - lng1)))
      (sq_nonneg (Real.cos (rad lat1) - Real.cos (rad lat2)))]

/-- For a latitude strictly between -90 and 90 degrees, the cosine of its
radian value is positive. -/
lemma cos_rad_pos {q : ℚ} (h1 : -90 < q) (h2 : q < 90) : 0 < Real.cos (rad q) := by
  apply Real.cos_pos_of_mem_Ioo
  have hq1 : (-90:ℝ) < (q:ℝ) := by exact_mod_cast h1
  have hq2 : ((q:ℝ)) < 90 := by exact_mod_cast h2
  have hπ := Real.pi_pos
  constructor
  · rw [rad]
    nlinarith [mul_pos (show (0:ℝ) < (q:ℝ) + 90 by linarith) hπ]
  · rw [rad]
    nlinarith [mul_pos (show (0:ℝ) < 90 - (q:ℝ) by linarith) hπ]

/-- For a nonzero degree value of magnitude below 360, the sine of half its
radian value is nonzero. -/
lemma sin_rad_half_ne {q : ℚ} (hq : q ≠ 0) (hb : |q| < 360) :
    Real.sin (rad q / 2) ≠ 0 := by
  have hπ := Real.pi_pos
  have hqr : (q:ℝ) ≠ 0 := by exact_mod_cast hq
  have hbr : |(q:ℝ)| < 360 := by
    rw [show |(q:ℝ)| = ((|q| : ℚ) : ℝ) by push_cast; ring]
    exact_mod_cast hb
  have hform : rad q / 2 = (q:ℝ) * Real.pi / 360 := by
    rw [rad]
    ring
  have hx : rad q / 2 ≠ 0 := by
    rw [hform]
    exact div_ne_zero (mul_ne_zero hqr hπ.ne') (by norm_num)
  have habs : |rad q / 2| < Real.pi := by
    rw [hform, abs_div, abs_mul, abs_of_pos hπ, abs_of_pos (by norm_num : (0:ℝ) < 360)]
    rw [div_lt_iff₀ (by norm_num : (0:ℝ) < 360)]
    nlinarith [mul_pos (show (0:ℝ) < 360 - |(q:ℝ)| by linarith) hπ, abs_nonneg ((q:ℝ))]
  rcases lt_or_gt_of_ne hx with h | h
  · have hs := Real.sin_neg_of_neg_of_neg_pi_lt h (by
      rw [abs_lt] at habs
      linarith [habs.1])
    exact hs.ne
  · have hs := Real.sin_pos_of_pos_of_lt_pi h (by
      rw [abs_lt] at habs
      linarith [habs.2])
    exact hs.ne'

/-- The haversine intermediate value is strictly positive between two points
whose coordinates differ, when latitudes are strictly inside the poles and
the longitude difference is below a full turn. -/
lemma haverA_pos {lat1 lng1 lat2 lng2 : ℚ}
    (hlat1 : -90 < lat1 ∧ lat1 < 90) (hlat2 : -90 < lat2 ∧ lat2 < 90)
    (hlng : |lng2 - lng1| < 360)
    (hne : lat1 ≠ lat2 ∨ lng1 ≠ lng2) :
    0 < haverA lat1 lng1 lat2 lng2 := by
  rw [haverA]
  have hc1 := cos_rad_pos hlat1.1 hlat1.2
  have hc2 := cos_rad_pos hlat2.1 hlat2.2
  have hsin2 : (0:ℝ) ≤ Real.sin (rad (lng2 - lng1) / 2) ^ 2 := sq_nonneg _
  have hsin1 : (0:ℝ) ≤ Real.sin (rad (lat2 - lat1) / 2) ^ 2 := sq_nonneg _
  rcases hne with hne | hne
  · have hd : lat2 - lat1 ≠ 0 := sub_ne_zero.mpr (Ne.symm hne)
    have hb : |lat2 - lat1| < 360 := by
      rw [abs_lt]
      constructor <;> linarith [hlat1.1, hlat1.2, hlat2.1, hlat2.2]
    have h1 : 0 < Real.sin (rad (lat2 - lat1) / 2) ^ 2 :=
      pow_two_pos_of_ne_zero (sin_rad_half_ne hd hb)
    nlinarith [mul_nonneg (mul_nonneg hc1.le hc2.le) hsin2]
  · have hd : lng2 - lng1 ≠ 0 := sub_ne_zero.mpr (Ne.symm hne)
    have h2 : 0 < Real.sin (rad (lng2 - lng1) / 2) ^ 2 :=
      pow_two_pos_of_ne_zero (sin_rad_half_ne hd hlng)
    nlinarith [mul_pos (mul_pos hc1 hc2) h2]

/-- `getDistance` is strictly positive between two points whose coordinates
differ, when latitudes are strictly inside the poles and the longitude
difference is below a full turn. -/
lemma getDistance_pos {lat1 lng1 lat2 lng2 : ℚ}
    (hlat1 : -90 < lat1 ∧ lat1 < 90) (hlat2 : -90 < lat2 ∧ lat2 < 90)
    (hlng : |lng2 - lng1| < 360)
    (hne : lat1 ≠ lat2 ∨ lng1 ≠ lng2) :
    0 < getDistance lat1 lng1 lat2 lng2 := by
  rw [getDistance_eq]
  have ha := haverA_pos hlat1 hlat2 hlng hne
  have h := atan2_pos (Real.sqrt_pos.mpr ha)
    (Real.sqrt_nonneg (1 - haverA lat1 lng1 lat2 lng2))
  linarith

/-- The fallback distance is always nonnegative. -/
lemma fallbackDist_nonneg (stops : List Location) : 0 ≤ fallbackDist stops := by
  induction stops with
  | nil => simp [fallbackDist]
  | cons a rest ih =>
    cases rest with
    | nil => simp [fallbackDist]
    | cons b r =>
      have h := getDistance_nonneg a.lat a.lng b.lat b.lng
      simp only [fallbackDist]
      linarith

/-- The fallback distance is strictly positive as soon as two stops differ in
coordinates, when all stop latitudes are strictly inside the poles and all
stop longitudes are strictly inside a half turn. -/
lemma fallbackDist_pos (stops : List Location)
    (hlat : ∀ l ∈ stops, -90 < l.lat ∧ l.lat < 90)
    (hlng : ∀ l ∈ stops, -180 < l.lng ∧ l.lng < 180)
    (hne : ∃ x ∈ stops, ∃ y ∈ stops, x.lat ≠ y.lat ∨ x.lng ≠ y.lng) :
    0 < fallbackDist stops := by
  induction stops with
  | nil =>
    obtain ⟨x, hx, -⟩ := hne
    exact absurd hx (List.not_mem_nil x)
  | cons a rest ih =>
    cases rest with
    | nil =>
      obtain ⟨x, hx, y, hy, hxy⟩ := hne
      rw [List.mem_singleton] at hx hy
      subst hx
      subst hy
      rcases hxy with h | h <;> exact absurd rfl h
    | cons b r =>
      by_cases hab : a.lat = b.lat ∧ a.lng = b.lng
      · have hne' : ∃ x ∈ b :: r, ∃ y ∈ b :: r, x.lat ≠ y.lat ∨ x.lng ≠ y.lng := by
          obtain ⟨x, hx, y, hy, hxy⟩ := hne
          rcases List.mem_cons.mp hx with hxa | hx2
          · rcases List.mem_cons.mp hy with hya | hy2
            · rw [hxa, hya] at hxy
              rcases hxy with h | h <;> exact absurd rfl h
            · refine ⟨b, List.mem_cons_self _ _, y, hy2, ?_⟩
              rw [hxa] at hxy
              rcases hxy with h | h
              · exact Or.inl (by rw [← hab.1]; exact h)
              · exact Or.inr (by rw [← hab.2]; exact h)
          · rcases List.mem_cons.mp hy with hya | hy2
            · refine ⟨x, hx2, b, List.mem_cons_self _ _, ?_⟩
              rw [hya] at hxy
              rcases hxy with h | h
              · exact Or.inl (by rw [hab.1] at h; exact h)
              · exact Or.inr (by rw [hab.2] at h; exact h)
            · exact ⟨x, hx2, y, hy2, hxy⟩
        have hpos := ih (fun l hl => hlat l (List.mem_cons_of_mem _ hl))
          (fun l hl => hlng l (List.mem_cons_of_mem _ hl)) hne'
        have h0 := getDistance_nonneg a.lat a.lng b.lat b.lng
        simp only [fallbackDist]
        linarith
      · have hlatab := hlat a (List.mem_cons_self _ _)
        have hlatb := hlat b (List.mem_cons_of_mem _ (List.mem_cons_self _ _))
        have hlngab := hlng a (List.mem_cons_self _ _)
        have hlngb := hlng b (List.mem_cons_of_mem _ (List.mem_cons_self _ _))
        have hseg : 0 < getDistance a.lat a.lng b.lat b.lng := by
          refine getDistance_pos hlatab hlatb ?_ ?_
          · rw [abs_lt]
            constructor <;> linarith [hlngab.1, hlngab.2, hlngb.1, hlngb.2]
          · rw [Classical.not_and_iff_or_not_not] at hab
            exact hab
        have h0 := fallbackDist_nonneg (b :: r)
        simp only [fallbackDist]
        linarith

/-- The nearness test of the map app accepts two identical locations. -/
lemma osrmNear_self (l : Location) : osrmNear l l = true := by
  rw [osrmNear, getDistance_self, if_pos (by norm_num : (0:ℝ) < 20)]

/-!
### Concrete runs used as witnesses and counterexamples
-/

/-- Demo-app request from Nicosia to Nissi Beach (no region). -/
def q1 : Request1 := ⟨"q1", nicosia, nissi, 1, 0, ReqStatus.pending, 5⟩

/-- Demo-app request from Nicosia to Kourion (no region). -/
def q2 : Request1 := ⟨"q2", nicosia, kourion, 1, 0, ReqStatus.pending, 5⟩

/-- Demo-app request from Larnaca to Kakopetria (region Troodos). -/
def q3 : Request1 := ⟨"q3", larnaca, kakopetriaDemo, 2, 0, ReqStatus.pending, 5⟩

/-- Demo-app request from Nicosia to Platres (region Troodos). -/
def q4 : Request1 := ⟨"q4", nicosia, platresDemo, 3, 0, ReqStatus.pending, 5⟩

/-- Map-app request from Nicosia to Nissi Beach with 20 passengers. -/
def ra : Request := ⟨"a", nicosia, nissi, 20, "t"⟩

/-- A second map-app request to the same destination with 20 passengers. -/
def rb : Request := ⟨"b", nicosia, nissi, 20, "t2"⟩

/-- Map-app request from Nicosia to Nissi Beach with 2 passengers. -/
def rc : Request := ⟨"c", nicosia, nissi, 2, "t"⟩

/-- Demo-app state holding four pending requests. -/
def demoState : App1State := ⟨[q1, q3, q4, q2], [], 4, 0, none, none⟩

/-- Demo-app state with a selection made. -/
def demoSel : App1State := ⟨[], [], 0, 0, some nicosia, some kakopetriaDemo⟩

/-- Map-app state with one accumulated 20-passenger request to Nissi Beach
and the same destination selected again with 20 passengers. -/
noncomputable def st20 : AppState := ⟨some nicosia, some nissi, 20, [], [ra], ⟨1, 0⟩⟩

/-- Map-app state with an empty store and a fresh selection. -/
noncomputable def stc : AppState := ⟨some nicosia, some nissi, 2, [], [], ⟨0, 0⟩⟩

/-- Degenerate map-app state: destination equals pickup, zero passengers. -/
noncomputable def stBad : AppState := ⟨some nissi, some nissi, 0, [], [], ⟨0, 0⟩⟩

/-- Map-app state with a positive total-requests counter. -/
noncomputable def stOne : AppState := ⟨none, none, 1, [], [], ⟨1, 0⟩⟩

/-- Map-app state like `stc` but with stale published routes and counters. -/
noncomputable def stNoisy : AppState :=
  ⟨some nicosia, some nissi, 2, [buildRoute (fun _ => none) "old" [rc]], [], ⟨7, 3⟩⟩

/-!
### Claims
-/

/-- C1: for every clustering run, every pending request present at trigger
time lands in exactly one output cluster — the concatenation of the clusters
is a permutation of the pending input (ids are unique by the data model) —
so the cluster sizes sum to the number of pending requests at trigger time.
Stated for the demo app's run over `pendingRequests` and for the run inside
the map app's `submitRequest`. -/
theorem C1_clustering_partitions :
    (∀ st : App1State, ((pendingRequests st).map Request1.id).Nodup →
      (simulateRLClusters (pendingRequests st)).flatten.Perm (pendingRequests st) ∧
      ((simulateRLClusters (pendingRequests st)).map List.length).sum
        = (pendingRequests st).length) ∧
    (∀ (near : Location → Location → Bool) (reqs : List Request),
      (reqs.map Request.id).Nodup →
      (submitClusters near reqs).flatten.Perm reqs ∧
      ((submitClusters near reqs).map List.length).sum = reqs.length) := by
  constructor
  · intro st h
    have hp := runClustering_flatten_perm Request1.id canAddRegion (pendingRequests st) h
    refine ⟨hp, ?_⟩
    rw [← List.length_flatten]
    exact hp.length_eq
  · intro near reqs h
    have hp := runClustering_flatten_perm Request.id (canAddNear near) reqs h
    refine ⟨hp, ?_⟩
    rw [← List.length_flatten]
    exact hp.length_eq

/-- Witness for C1 on a concrete four-request demo state and a concrete
two-request map-app run with the program's own nearness test. -/
theorem C1_witness :
    (simulateRLClusters (pendingRequests demoState)).flatten.Perm (pendingRequests demoState) ∧
    ((simulateRLClusters (pendingRequests demoState)).map List.length).sum
      = (pendingRequests demoState).length ∧
    (submitClusters osrmNear [ra, rb]).flatten.Perm [ra, rb] ∧
    ((submitClusters osrmNear [ra, rb]).map List.length).sum = 2 := by
  obtain ⟨h1, h2⟩ := C1_clustering_partitions.1 demoState (by decide)
  obtain ⟨h3, h4⟩ := C1_clustering_partitions.2 osrmNear [ra, rb] (by decide)
  exact ⟨h1, h2, h3, h4⟩

/-- C2 counterexample: two demo-app requests whose spec-side compatibility
keys (region if present, else category) differ — a beach and an
archaeological destination, both without a region — are placed in the same
cluster, because the code compares only the raw `region` fields and two
absent regions compare equal. -/
theorem C2_counterexample :
    specCompatibilityKey q1.destination ≠ specCompatibilityKey q2.destination ∧
    simulateRLClusters [q1, q2] = [[q1, q2]] := by
  exact ⟨by decide, rfl⟩

/-- C2 (amended): in the demo app, cluster compatibility is decided solely by
strict equality of the destination `region` fields — all members of a
cluster share one region value, with absent regions all matching one another
regardless of category — never by distance; in the map app's `submitRequest`
compatibility is instead the nearness test (haversine destination distance
below 20 km) against the cluster's seed. -/
theorem C2_amended_region_key :
    (∀ (reqs : List Request1), ∀ c ∈ simulateRLClusters reqs, ∀ x ∈ c, ∀ y ∈ c,
      x.destination.region = y.destination.region) ∧
    (∀ (near : Location → Location → Bool) (reqs : List Request),
      ∀ c ∈ submitClusters near reqs, ∃ s d, c = s :: d ∧ s ∈ reqs ∧
        ∀ x ∈ d, near s.destination x.destination = true) :=
  ⟨fun reqs => simulateRLClusters_region_eq reqs,
   fun near reqs => submitClusters_near near reqs⟩

/-- Witness for the amended C2 on concrete clusters of both apps. -/
theorem C2_witness :
    q1.destination.region = q2.destination.region ∧
    (∃ s d, ([ra, rb] : List Request) = s :: d ∧ s ∈ [ra, rb] ∧
      ∀ x ∈ d, osrmNear s.destination x.destination = true) := by
  have hsub : submitClusters osrmNear [ra, rb] = [[ra, rb]] := by
    simp [submitClusters, runClustering, outerStep, innerStep, canAddNear, ra, rb, osrmNear_self]
  constructor
  · refine C2_amended_region_key.1 [q1, q2] [q1, q2] ?_ q1 ?_ q2 ?_
    · rw [show simulateRLClusters [q1, q2] = [[q1, q2]] from rfl]
      exact List.mem_singleton.mpr rfl
    · simp
    · simp
  · refine C2_amended_region_key.2 osrmNear [ra, rb] [ra, rb] ?_
    rw [hsub]
    exact List.mem_singleton.mpr rfl

/-- C3 counterexample: submitting a second 20-passenger request to the same
destination clusters both requests together (the destination distance is 0,
below 20 km) and publishes a route carrying 40 passengers, exceeding the
largest vehicle capacity of 20 (the Bus class); no capacity check exists in
the map app's clustering. -/
theorem C3_counterexample :
    ((submitRequest osrmNear (fun _ => none) "b" (fun _ => "r0") "t2" st20).routes.map
      BuiltRoute.passengers) = [40] ∧
    VEHICLES.large.capacity = 20 ∧ ¬((40:ℕ) ≤ 20) := by
  refine ⟨?_, rfl, by norm_num⟩
  simp [submitRequest, st20, submitClusters, runClustering, outerStep, innerStep, canAddNear,
    ra, osrmNear_self, buildRoute]

/-- C3 (amended): the demo app's clustering caps clusters at 4 requests, so
whenever every pending request carries at most 4 passengers (as all generated
requests do) each cluster's passenger total is at most 16 and hence within
the largest vehicle capacity of 20; the map app's clustering imposes no
capacity bound, and its cluster totals can exceed 20. -/
theorem C3_amended_capacity (reqs : List Request1)
    (hp : ∀ r ∈ reqs, r.passengers ≤ 4) :
    ∀ c ∈ simulateRLClusters reqs, (c.map Request1.passengers).sum ≤ 16 ∧
      (c.map Request1.passengers).sum ≤ VEHICLES.large.capacity := by
  intro c hc
  have hlen := simulateRLClusters_length_le reqs c hc
  have hmem : ∀ x ∈ c, x ∈ reqs := by
    obtain ⟨-, hsub, -, -⟩ := runClustering_spec Request1.id canAddRegion reqs
    intro x hx
    exact hsub x (List.mem_flatten.mpr ⟨c, hc, hx⟩)
  have hsum := List.sum_le_card_nsmul (c.map Request1.passengers) 4 (by
    intro x hx
    obtain ⟨r, hr, rfl⟩ := List.mem_map.mp hx
    exact hp r (hmem r hr))
  rw [List.length_map] at hsum
  simp only [smul_eq_mul] at hsum
  have hcap : VEHICLES.large.capacity = 20 := rfl
  constructor
  · omega
  · omega

/-- Witness for the amended C3 on a concrete demo-app cluster. -/
theorem C3_witness :
    (([q1, q2] : List Request1).map Request1.passengers).sum ≤ 16 ∧
    (([q1, q2] : List Request1).map Request1.passengers).sum ≤ VEHICLES.large.capacity := by
  refine C3_amended_capacity [q1, q2] (by decide) [q1, q2] ?_
  rw [show simulateRLClusters [q1, q2] = [[q1, q2]] from rfl]
  exact List.mem_singleton.mpr rfl

/-- C4 counterexample: a one-request cluster whose provider call fails yields
a route whose `geometry` is `none` (the code stores `null`), not the
non-empty straight-line stop sequence the claim demands, although the stop
list has the two distinct stops of the request. -/
theorem C4_counterexample :
    (buildRoute (fun _ => none) "r0" [ra]).geometry = none ∧
    (stopsOf [ra]).length = 2 := by
  constructor
  · rfl
  · rfl

/-- C4 (amended): for every cluster whose routing-provider call fails, route
building still produces a Route, but with empty geometry (`null`); its
distance is the sum of the haversine great-circle lengths of the consecutive
stop segments, its duration the rounded minutes of that distance at the
assumed 45 km/h average speed, and the distance is positive whenever two
stops differ in coordinates (with all stop latitudes strictly inside the
poles and longitudes strictly inside a half turn, as all catalog entries
are). -/
theorem C4_fallback_route (net : List Location → Option RouteData) (idGen : String)
    (cluster : List Request) (hfail : net (stopsOf cluster) = none) :
    (buildRoute net idGen cluster).geometry = none ∧
    (buildRoute net idGen cluster).distance = fallbackDist (stopsOf cluster) ∧
    (buildRoute net idGen cluster).time
      = jsRound (fallbackDist (stopsOf cluster) / 45 * 60) ∧
    ((∀ l ∈ stopsOf cluster, -90 < l.lat ∧ l.lat < 90) →
      (∀ l ∈ stopsOf cluster, -180 < l.lng ∧ l.lng < 180) →
      (∃ x ∈ stopsOf cluster, ∃ y ∈ stopsOf cluster, x.lat ≠ y.lat ∨ x.lng ≠ y.lng) →
      0 < (buildRoute net idGen cluster).distance) := by
  have hfetch : fetchRoute net (stopsOf cluster) = none := by
    rw [fetchRoute]
    split_ifs with h
    · rfl
    · exact hfail
  have hdist : (buildRoute net idGen cluster).distance = fallbackDist (stopsOf cluster) := by
    simp only [buildRoute, hfetch]
  refine ⟨?_, hdist, ?_, ?_⟩
  · simp only [buildRoute, hfetch]
    rfl
  · simp only [buildRoute, hfetch]
  · intro hlat hlng hne
    rw [hdist]
    exact fallbackDist_pos (stopsOf cluster) hlat hlng hne

/-- Witness for the amended C4: a concrete failing-provider cluster with two
distinct stops gets fallback distance, duration and empty geometry, and the
distance is strictly positive. -/
theorem C4_witness :
    (buildRoute (fun _ => none) "r1" [rb]).geometry = none ∧
    (buildRoute (fun _ => none) "r1" [rb]).distance = fallbackDist (stopsOf [rb]) ∧
    (buildRoute (fun _ => none) "r1" [rb]).time
      = jsRound (fallbackDist (stopsOf [rb]) / 45 * 60) ∧
    0 < (buildRoute (fun _ => none) "r1" [rb]).distance := by
  obtain ⟨h1, h2, h3, h4⟩ := C4_fallback_route (fun _ => none) "r1" [rb] rfl
  have hstops : stopsOf [rb] = [nicosia, nissi] := rfl
  refine ⟨h1, h2, h3, h4 ?_ ?_ ?_⟩
  · intro l hl
    rw [hstops] at hl
    rcases List.mem_cons.mp hl with h | h
    · rw [h]
      constructor <;> norm_num [nicosia]
    · rw [List.mem_singleton] at h
      rw [h]
      constructor <;> norm_num [nissi]
  · intro l hl
    rw [hstops] at hl
    rcases List.mem_cons.mp hl with h | h
    · rw [h]
      constructor <;> norm_num [nicosia]
    · rw [List.mem_singleton] at h
      rw [h]
      constructor <;> norm_num [nissi]
  · refine ⟨nicosia, ?_, nissi, ?_, Or.inl (by norm_num [nicosia, nissi])⟩
    · rw [hstops]
      exact List.mem_cons_self _ _
    · rw [hstops]
      exact List.mem_cons_of_mem _ (List.mem_singleton.mpr rfl)

/-- C5: every route published by `submitRequest` carries a CO2-saved figure
equal to max(0, passengers * distanceKm * 0.21 - distanceKm * vehicle co2
factor), and in particular it is never negative. -/
theorem C5_co2_saved (near : Location → Location → Bool)
    (net : List Location → Option RouteData) (reqId : String) (routeIds : ℕ → String)
    (now : String) (st : AppState) (p d : Location)
    (hp : st.pickup = some p) (hd : st.destination = some d) :
    ∀ r ∈ (submitRequest near net reqId routeIds now st).routes,
      r.co2 = max 0 ((r.passengers : ℝ) * r.distance * 0.21
        - r.distance * (r.vehicle.co2 : ℝ)) ∧
      0 ≤ r.co2 := by
  intro r hr
  simp only [submitRequest, hp, hd] at hr
  obtain ⟨ic, hic, rfl⟩ := List.mem_map.mp hr
  constructor
  · simp only [buildRoute]
  · simp only [buildRoute]
    exact le_max_left 0 _

/-- Witness for C5 on the single route published from a concrete
one-request submission. -/
theorem C5_witness :
    (buildRoute (fun _ => none) "r0" [rc]).co2
      = max 0 (((buildRoute (fun _ => none) "r0" [rc]).passengers : ℝ)
          * (buildRoute (fun _ => none) "r0" [rc]).distance * 0.21
          - (buildRoute (fun _ => none) "r0" [rc]).distance
            * ((buildRoute (fun _ => none) "r0" [rc]).vehicle.co2 : ℝ)) ∧
    0 ≤ (buildRoute (fun _ => none) "r0" [rc]).co2 := by
  refine C5_co2_saved osrmNear (fun _ => none) "c" (fun _ => "r0") "t" stc nicosia nissi
    rfl rfl (buildRoute (fun _ => none) "r0" [rc]) ?_
  simp [submitRequest, stc, submitClusters, runClustering, outerStep, innerStep, canAddNear, rc]

/-- C6 counterexample: with zero passengers and origin equal to destination,
`submitRequest` does not fail — no ValidationError exists anywhere in the
code — it appends the new request to the store. -/
theorem C6_counterexample :
    (submitRequest osrmNear (fun _ => none) "z" (fun _ => "r0") "t" stBad).requests
      = [⟨"z", nissi, nissi, 0, "t"⟩] ∧
    stBad.passengers = 0 ∧ stBad.pickup = stBad.destination := by
  refine ⟨?_, rfl, rfl⟩
  simp [submitRequest, stBad]

/-- C6 (amended): no ValidationError exists; the map app's `submitRequest`
returns the state unchanged when pickup or destination is unset, and
otherwise appends exactly one new request (which has no status field)
regardless of the passenger count or of origin equalling destination; the
demo app's `handleRequestRide` likewise appends exactly one new request with
status pending when and only when both selections are set. -/
theorem C6_amended_submit :
    (∀ (near : Location → Location → Bool) (net : List Location → Option RouteData)
      (reqId : String) (routeIds : ℕ → String) (now : String) (st : AppState)
      (p d : Location), st.pickup = some p → st.destination = some d →
      (submitRequest near net reqId routeIds now st).requests
        = st.requests ++ [⟨reqId, p, d, st.passengers, now⟩]) ∧
    (∀ (near : Location → Location → Bool) (net : List Location → Option RouteData)
      (reqId : String) (routeIds : ℕ → String) (now : String) (st : AppState),
      st.pickup = none ∨ st.destination = none →
      submitRequest near net reqId routeIds now st = st) ∧
    (∀ (newId : String) (now eta : ℕ) (st : App1State) (o d : Location),
      st.selectedOrigin = some o → st.selectedDestination = some d →
      (handleRequestRide newId now eta st).rideRequests
        = st.rideRequests ++ [⟨newId, o, d, 1, now, ReqStatus.pending, eta⟩]) := by
  refine ⟨?_, ?_, ?_⟩
  · intro near net reqId routeIds now st p d hp hd
    simp [submitRequest, hp, hd]
  · intro near net reqId routeIds now st h
    rcases h with h | h
    · simp [submitRequest, h]
    · rcases hq : st.pickup with _ | p
      · simp [submitRequest, hq]
      · simp [submitRequest, hq, h]
  · intro newId now eta st o d ho hd
    simp [handleRequestRide, ho, hd]

/-- Witness for the amended C6 on concrete submissions in both apps. -/
theorem C6_witness :
    (submitRequest osrmNear (fun _ => none) "c" (fun _ => "r0") "t" stc).requests
      = stc.requests ++ [⟨"c", nicosia, nissi, stc.passengers, "t"⟩] ∧
    submitRequest osrmNear (fun _ => none) "c" (fun _ => "r0") "t" stOne = stOne ∧
    (handleRequestRide "h1" 0 7 demoSel).rideRequests
      = demoSel.rideRequests
        ++ [⟨"h1", nicosia, kakopetriaDemo, 1, 0, ReqStatus.pending, 7⟩] :=
  ⟨C6_amended_submit.1 osrmNear (fun _ => none) "c" (fun _ => "r0") "t" stc nicosia nissi
      rfl rfl,
   C6_amended_submit.2.1 osrmNear (fun _ => none) "c" (fun _ => "r0") "t" stOne (Or.inl rfl),
   C6_amended_submit.2.2 "h1" 0 7 demoSel nicosia kakopetriaDemo rfl rfl⟩

/-- C7: vehicle selection is a pure function of a route's passenger total:
the smallest class whose capacity accommodates it (Mini Van up to 4, Minibus
up to 8, Bus up to 20); above 20 passengers the largest class (Bus) is
selected and the route is still built and kept, not rejected. -/
theorem C7_select_vehicle (p : ℕ) :
    selectVehicle p ∈ vehicleList ∧
    (p ≤ 20 → p ≤ (selectVehicle p).capacity) ∧
    (∀ v ∈ vehicleList, p ≤ v.capacity → (selectVehicle p).capacity ≤ v.capacity) ∧
    (20 < p → selectVehicle p = VEHICLES.large) ∧
    (∀ (net : List Location → Option RouteData) (idGen : String) (cluster : List Request),
      (buildRoute net idGen cluster).vehicle
        = selectVehicle ((cluster.map Request.passengers).sum)) := by
  have hbuild : ∀ (net : List Location → Option RouteData) (idGen : String)
      (cluster : List Request), (buildRoute net idGen cluster).vehicle
        = selectVehicle ((cluster.map Request.passengers).sum) := by
    intro net idGen cluster
    simp only [buildRoute]
  rcases le_or_lt p 4 with h4 | h4
  · have hs : selectVehicle p = VEHICLES.small := by simp [selectVehicle, h4]
    refine ⟨by simp [hs, vehicleList], fun _ => by rw [hs]; exact h4.trans (by norm_num [VEHICLES]),
      ?_, fun h => absurd h (by omega), hbuild⟩
    intro v hv _
    rw [hs]
    rw [vehicleList] at hv
    rcases List.mem_cons.mp hv with rfl | hv
    · exact le_refl _
    rcases List.mem_cons.mp hv with rfl | hv
    · norm_num [VEHICLES]
    rw [List.mem_singleton] at hv
    rw [hv]
    norm_num [VEHICLES]
  · rcases le_or_lt p 8 with h8 | h8
    · have hs : selectVehicle p = VEHICLES.medium := by
        simp [selectVehicle, show ¬p ≤ 4 by omega, h8]
      refine ⟨by simp [hs, vehicleList], fun _ => by rw [hs]; exact h8.trans (by norm_num [VEHICLES]),
        ?_, fun h => absurd h (by omega), hbuild⟩
      intro v hv hc
      rw [hs]
      rw [vehicleList] at hv
      rcases List.mem_cons.mp hv with rfl | hv
      · exact absurd hc (by simp only [VEHICLES]; omega)
      rcases List.mem_cons.mp hv with rfl | hv
      · exact le_refl _
      rw [List.mem_singleton] at hv
      rw [hv]
      norm_num [VEHICLES]
    · have hs : selectVehicle p = VEHICLES.large := by
        simp [selectVehicle, show ¬p ≤ 4 by omega, show ¬p ≤ 8 by omega]
      refine ⟨by simp [hs, vehicleList], fun hp => by rw [hs]; exact hp,
        ?_, fun _ => hs, hbuild⟩
      intro v hv hc
      rw [hs]
      rw [vehicleList] at hv
      rcases List.mem_cons.mp hv with rfl | hv
      · exact absurd hc (by simp only [VEHICLES]; omega)
      rcases List.mem_cons.mp hv with rfl | hv
      · exact absurd hc (by simp only [VEHICLES]; omega)
      rw [List.mem_singleton] at hv
      rw [hv]

/-- Witness for C7 at the concrete passenger counts 9 and 21. -/
theorem C7_witness :
    9 ≤ (selectVehicle 9).capacity ∧ selectVehicle 21 = VEHICLES.large :=
  ⟨(C7_select_vehicle 9).2.1 (by norm_num), (C7_select_vehicle 21).2.2.2.1 (by norm_num)⟩

/-- C8: cluster membership is fully determined by the input request
sequence.  In the demo app, two optimization runs over the same requests
with different random id and savings draws produce identical membership; in
the map app, two submissions of the same request from states agreeing on the
accumulated requests, the selection and the passenger count — but with
arbitrary previously published routes, stats and route-id draws — publish
routes with identical cluster membership. -/
theorem C8_deterministic_membership :
    (∀ (reqs : List Request1) (ids1 ids2 : ℕ → String) (sav1 sav2 : ℕ → ℚ),
      (simulateRLOptimization ids1 sav1 reqs).map ClusterObj.requests
        = (simulateRLOptimization ids2 sav2 reqs).map ClusterObj.requests) ∧
    (∀ (near : Location → Location → Bool) (net : List Location → Option RouteData)
      (reqId : String) (rids1 rids2 : ℕ → String) (now : String) (st1 st2 : AppState)
      (p d : Location),
      st1.pickup = some p → st2.pickup = some p →
      st1.destination = some d → st2.destination = some d →
      st1.requests = st2.requests → st1.passengers = st2.passengers →
      (submitRequest near net reqId rids1 now st1).routes.map BuiltRoute.requests
        = (submitRequest near net reqId rids2 now st2).routes.map BuiltRoute.requests) := by
  constructor
  · intro reqs ids1 ids2 sav1 sav2
    simp only [simulateRLOptimization, List.map_map]
    rfl
  · intro near net reqId rids1 rids2 now st1 st2 p d hp1 hp2 hd1 hd2 hreq hpass
    simp only [submitRequest, hp1, hp2, hd1, hd2, hreq, hpass]
    simp only [List.map_map]
    rfl

/-- Witness for C8: concrete runs with different random draws, and map-app
states differing in published routes and counters, agree on membership. -/
theorem C8_witness :
    ((simulateRLOptimization (fun _ => "i") (fun _ => 0) [q1, q2]).map ClusterObj.requests
      = (simulateRLOptimization (fun n => toString n) (fun _ => 1/2) [q1, q2]).map
          ClusterObj.requests) ∧
    ((submitRequest osrmNear (fun _ => none) "c" (fun _ => "rA") "t" stc).routes.map
        BuiltRoute.requests
      = (submitRequest osrmNear (fun _ => none) "c" (fun _ => "rB") "t" stNoisy).routes.map
          BuiltRoute.requests) :=
  ⟨C8_deterministic_membership.1 [q1, q2] (fun _ => "i") (fun n => toString n)
      (fun _ => 0) (fun _ => 1/2),
   C8_deterministic_membership.2 osrmNear (fun _ => none) "c" (fun _ => "rA")
      (fun _ => "rB") "t" stc stNoisy nicosia nissi rfl rfl rfl rfl rfl rfl⟩

/-- C9 counterexample: `clearAll` resets the total-requests counter to zero,
strictly decreasing it on any state where it was positive. -/
theorem C9_counterexample :
    (clearAll stOne).stats.total = 0 ∧ stOne.stats.total = 1 ∧ (0:ℕ) < 1 :=
  ⟨rfl, rfl, by norm_num⟩

/-- C9 (amended): every successful submission increments the total-requests
counter by exactly one, a blocked submission leaves it unchanged, and no
modelled operation other than `clearAll` decreases it — but `clearAll`
resets it to zero.  In the demo app the counter is monotonic across all its
operations (no reset exists there). -/
theorem C9_amended_counter :
    (∀ (near : Location → Location → Bool) (net : List Location → Option RouteData)
      (reqId : String) (routeIds : ℕ → String) (now : String) (st : AppState)
      (p d : Location), st.pickup = some p → st.destination = some d →
      (submitRequest near net reqId routeIds now st).stats.total = st.stats.total + 1) ∧
    (∀ (near : Location → Location → Bool) (net : List Location → Option RouteData)
      (reqId : String) (routeIds : ℕ → String) (now : String) (st : AppState),
      st.stats.total ≤ (submitRequest near net reqId routeIds now st).stats.total) ∧
    (∀ st : AppState, (clearAll st).stats.total = 0) ∧
    (∀ (newId : String) (now eta : ℕ) (st : App1State),
      st.totalRequests ≤ (handleRequestRide newId now eta st).totalRequests) ∧
    (∀ (newReq : Request1) (st : App1State),
      st.totalRequests ≤ (simulateTick newReq st).totalRequests) ∧
    (∀ (ids : ℕ → String) (sav : ℕ → ℚ) (st : App1State),
      (runOptimization ids sav st).totalRequests = st.totalRequests) := by
  refine ⟨?_, ?_, fun st => rfl, ?_, ?_, fun ids sav st => rfl⟩
  · intro near net reqId routeIds now st p d hp hd
    simp [submitRequest, hp, hd]
  · intro near net reqId routeIds now st
    rcases hq : st.pickup with _ | p
    · simp [submitRequest, hq]
    · rcases hr : st.destination with _ | d
      · simp [submitRequest, hq, hr]
      · simp [submitRequest, hq, hr]
  · intro newId now eta st
    rcases hq : st.selectedOrigin with _ | o
    · simp [handleRequestRide, hq]
    · rcases hr : st.selectedDestination with _ | d
      · simp [handleRequestRide, hq, hr]
      · simp [handleRequestRide, hq, hr]
  · intro newReq st
    rw [simulateTick]
    split_ifs
    · simp
    · exact le_refl _

/-- Witness for the amended C9 on concrete states. -/
theorem C9_witness :
    (submitRequest osrmNear (fun _ => none) "c" (fun _ => "r0") "t" stc).stats.total
      = stc.stats.total + 1 ∧
    (clearAll stOne).stats.total = 0 ∧
    demoSel.totalRequests ≤ (handleRequestRide "h1" 0 7 demoSel).totalRequests :=
  ⟨C9_amended_counter.1 osrmNear (fun _ => none) "c" (fun _ => "r0") "t" stc nicosia nissi
      rfl rfl,
   C9_amended_counter.2.2.1 stOne,
   C9_amended_counter.2.2.2.1 "h1" 0 7 demoSel⟩

/-- C10: every call of the map app's `submitRequest` with a selection set
appends the new request to the full accumulated list (requests carry no
status field and none is ever removed from the clustering pool), re-runs
clustering over that entire accumulated list, and replaces the published
routes wholesale with routes freshly built from those clusters under the
current random route-id draw — independently of the previously published
routes and counters, which are discarded. -/
theorem C10_full_reclustering (near : Location → Location → Bool)
    (net : List Location → Option RouteData) (reqId : String) (routeIds : ℕ → String)
    (now : String) (st : AppState) (p d : Location)
    (hp : st.pickup = some p) (hd : st.destination = some d) :
    (submitRequest near net reqId routeIds now st).requests
      = st.requests ++ [⟨reqId, p, d, st.passengers, now⟩] ∧
    (submitRequest near net reqId routeIds now st).routes
      = (submitClusters near (st.requests ++ [⟨reqId, p, d, st.passengers, now⟩])).enum.map
          (fun ic => buildRoute net (routeIds ic.1) ic.2) ∧
    (∀ st2 : AppState, st2.pickup = some p → st2.destination = some d →
      st2.requests = st.requests → st2.passengers = st.passengers →
      (submitRequest near net reqId routeIds now st2).routes
        = (submitRequest near net reqId routeIds now st).routes) := by
  refine ⟨by simp [submitRequest, hp, hd], by simp [submitRequest, hp, hd], ?_⟩
  intro st2 hp2 hd2 hreq hpass
  simp [submitRequest, hp, hd, hp2, hd2, hreq, hpass]

/-- Witness for C10: a concrete submission onto a state with stale routes
and counters yields the same fresh routes as from the clean state. -/
theorem C10_witness :
    (submitRequest osrmNear (fun _ => none) "c" (fun _ => "r0") "t" stc).requests
      = stc.requests ++ [⟨"c", nicosia, nissi, stc.passengers, "t"⟩] ∧
    (submitRequest osrmNear (fun _ => none) "c" (fun _ => "r0") "t" stNoisy).routes
      = (submitRequest osrmNear (fun _ => none) "c" (fun _ => "r0") "t" stc).routes := by
  obtain ⟨h1, -, h3⟩ := C10_full_reclustering osrmNear (fun _ => none) "c" (fun _ => "r0")
    "t" stc nicosia nissi rfl rfl
  exact ⟨h1, h3 stNoisy rfl rfl rfl rfl⟩
